import Mathlib

/-
Shallow embedding of src/measure_scripts/charge_hybrid.py (pygamry), the
charge/discharge cycling controller: conditioning step, cycling loop with
per-cycle stop-condition evaluation, and the voltage-finish stage.

Floating-point quantities (voltages, currents, times) are modelled as
rationals; the integer command-line argument max_repeats as an integer.
The external measurement engine and wall clock are modelled by an
environment supplying, for each cycle index, the sequencer summary left
behind by the hybrid call of that cycle and the elapsed time read at
the boundary of that cycle, plus the result of pstat.TestIsOpen().
-/

set_option maxHeartbeats 1000000

namespace ChargeHybrid

/-- Run configuration: the command-line parameters read by the control
logic of charge_hybrid.py (argparse block, lines 18-31, plus the hybrid
arguments hybrid_i_init and hybrid_rest_time used by the controller). -/
structure Args where
  hybrid_i_init : ℚ
  hybrid_rest_time : ℚ
  condition_time : ℚ
  condition_t_sample : ℚ
  max_repeats : ℤ
  duration : ℚ
  stop_v_min : ℚ
  stop_v_max : ℚ
  voltage_finish : Bool
  finish_v : ℚ
  finish_i_thresh : ℚ
  finish_i_max : ℚ
  finish_t_sample : ℚ
  finish_duration : ℚ
  finish_rest_time : ℚ
deriving DecidableEq

/-- np.sign as used on line 44: i_sign = np.sign(args.hybrid_i_init),
yielding 1, -1 or 0. -/
def npSign (x : ℚ) : ℚ := if 0 < x then 1 else if x < 0 then -1 else 0

/-- Sequencer Summary: the min/max/end voltages accumulated by the
HybridSequencer and read by the controller after each hybrid call
(seq.meas_v_min, seq.meas_v_max, seq.meas_v_end). -/
structure SeqSummary where
  meas_v_min : ℚ
  meas_v_max : ℚ
  meas_v_end : ℚ
deriving DecidableEq

/-- The four stop checks of lines 112-149, in source order; each fired
check prints a distinct STOPPING message, modelled as a reason token. -/
inductive StopReason where
  | lowVoltage
  | highVoltage
  | voltageFinish
  | durationExceeded
deriving DecidableEq, Repr

/-- Stop Decision evaluation, lines 112-149: stop starts False, each of the
four checks is an independent if-statement that sets stop = True and prints
its message; no early exit.  Returns the final stop flag together with the
list of messages printed, in print order. -/
def stopDecision (args : Args) (i_sign : ℚ) (s : SeqSummary) (elapsed : ℚ) :
    Bool × List StopReason :=
  let stop := false
  let reasons : List StopReason := []
  let p1 :=
    if s.meas_v_min ≤ args.stop_v_min then (true, reasons ++ [StopReason.lowVoltage])
    else (stop, reasons)
  let p2 :=
    if args.stop_v_max ≤ s.meas_v_max then (true, p1.2 ++ [StopReason.highVoltage])
    else (p1.1, p1.2)
  let p3 :=
    if args.voltage_finish ∧ args.finish_v * i_sign ≤ s.meas_v_end * i_sign then
      (true, p2.2 ++ [StopReason.voltageFinish])
    else (p2.1, p2.2)
  let p4 :=
    if args.duration ≤ elapsed then (true, p3.2 ++ [StopReason.durationExceeded])
    else (p3.1, p3.2)
  p4

/-- Environment: what the external world supplies to the controller.
summary n is the sequencer state after the run_hybrid call of cycle n;
elapsedAt n is time.time() - start_time as read at the boundary of cycle n
(line 141); pstatOpen is pstat.TestIsOpen() on the stop branch. -/
structure Env where
  summary : ℕ → SeqSummary
  elapsedAt : ℕ → ℚ
  pstatOpen : Bool

/-- One run_hybrid invocation as observed from the controller: the cycle
index, whether the file suffix carried a cycle indicator
(args.max_repeats > 1, line 89), and the two power directives passed. -/
structure CycleRecord where
  idx : ℕ
  cycleSuffix : Bool
  start_with_cell_off : Bool
  leave_cell_on : Bool
deriving DecidableEq, Repr

/-- Result of the cycling loop: the sequence of run_hybrid invocations, and
whether the loop broke early via stop, commanded CellOff, closed the
session. -/
structure LoopResult where
  calls : List CycleRecord
  stopped : Bool
  cellOff : Bool
  closed : Bool
deriving DecidableEq, Repr

/-- The cycling loop, lines 85-160, unrolled from index n with the given
remaining iteration count (fuel), and the current values of the mutable
variables start_with_cell_off and leave_cell_on.  Mirrors:
if n > 0: start_with_cell_off = False; if n == max_repeats - 1:
leave_cell_on = False; run_hybrid(...); stop checks; if stop: cell off and
close when open, break. -/
def loopFrom (args : Args) (i_sign : ℚ) (env : Env) :
    ℕ → ℕ → Bool → Bool → LoopResult
  | 0, _, _, _ => { calls := [], stopped := false, cellOff := false, closed := false }
  | fuel + 1, n, swco0, lco0 =>
      let swco := if 0 < n then false else swco0
      let lco := if (n : ℤ) = args.max_repeats - 1 then false else lco0
      let cyc : CycleRecord :=
        { idx := n
          cycleSuffix := decide (1 < args.max_repeats)
          start_with_cell_off := swco
          leave_cell_on := lco }
      let stop := (stopDecision args i_sign (env.summary n) (env.elapsedAt n)).1
      if stop then
        { calls := [cyc], stopped := true
          cellOff := env.pstatOpen, closed := env.pstatOpen }
      else
        let rest := loopFrom args i_sign env fuel (n + 1) swco lco
        { calls := cyc :: rest.calls, stopped := rest.stopped
          cellOff := rest.cellOff, closed := rest.closed }

/-- Current cutoff band for the voltage finish, lines 183-188:
if i_sign > 0: i_min = abs(finish_i_thresh), i_max = abs(finish_i_max);
else: i_min = abs(finish_i_max) * i_sign, i_max = abs(finish_i_thresh) * i_sign. -/
def finishCutoffs (args : Args) (i_sign : ℚ) : ℚ × ℚ :=
  if 0 < i_sign then (|args.finish_i_thresh|, |args.finish_i_max|)
  else (|args.finish_i_max| * i_sign, |args.finish_i_thresh| * i_sign)

/-- Whole-run trace: whether conditioning ran, the loop result, whether the
voltage-finish stage ran, and the cutoff band it computed when it did. -/
structure RunTrace where
  conditioningRan : Bool
  loop : LoopResult
  finishRan : Bool
  finishBand : Option (ℚ × ℚ)
deriving DecidableEq, Repr

/-- The whole script body (lines 33-203): derive i_sign, run conditioning
when condition_time > 0 (which leaves start_with_cell_off = False, else
True), run the cycling loop for range(max_repeats) starting with
leave_cell_on = True, then run the voltage-finish stage iff voltage_finish
is set, computing the cutoff band from i_sign. -/
def runScript (args : Args) (env : Env) : RunTrace :=
  let i_sign := npSign args.hybrid_i_init
  let start_with_cell_off := if 0 < args.condition_time then false else true
  let loop := loopFrom args i_sign env args.max_repeats.toNat 0 start_with_cell_off true
  { conditioningRan := decide (0 < args.condition_time)
    loop := loop
    finishRan := args.voltage_finish
    finishBand :=
      if args.voltage_finish then some (finishCutoffs args i_sign) else none }

/-- The stop flag computed after cycle n in environment env. -/
def stopDec (args : Args) (i_sign : ℚ) (env : Env) (n : ℕ) : Bool :=
  (stopDecision args i_sign (env.summary n) (env.elapsedAt n)).1

/-- A representative configuration built from the argparse defaults of
charge_hybrid.py (with a representative positive initial current). -/
def defaultArgs : Args where
  hybrid_i_init := 1
  hybrid_rest_time := 10
  condition_time := 0
  condition_t_sample := 1/1000
  max_repeats := 1
  duration := 3600
  stop_v_min := -1
  stop_v_max := 1
  voltage_finish := false
  finish_v := 0
  finish_i_thresh := 1/200
  finish_i_max := 1
  finish_t_sample := 1
  finish_duration := 3600
  finish_rest_time := 2

/-- A benign environment: voltages stay strictly inside the default stop
band, elapsed time stays at 0, the pstat session is open. -/
def quietEnv : Env where
  summary := fun _ => { meas_v_min := 0, meas_v_max := 0, meas_v_end := 0 }
  elapsedAt := fun _ => 0
  pstatOpen := true

/-- An environment whose cycle 1 breaches the default low-voltage bound
(minimum voltage -2 ≤ stop_v_min = -1) while cycle 0 is benign. -/
def breachEnv : Env where
  summary := fun m =>
    if m = 0 then { meas_v_min := 0, meas_v_max := 0, meas_v_end := 0 }
    else { meas_v_min := -2, meas_v_max := 0, meas_v_end := 0 }
  elapsedAt := fun _ => 0
  pstatOpen := true

/-- An environment whose elapsed time grows by one second per cycle. -/
def climbEnv : Env where
  summary := fun _ => { meas_v_min := 0, meas_v_max := 0, meas_v_end := 0 }
  elapsedAt := fun m => (m : ℚ)
  pstatOpen := true

/-- The default configuration with the voltage finish enabled. -/
def vfArgs : Args := { defaultArgs with voltage_finish := true }

/-- A configuration whose initial current is exactly zero, with the voltage
finish enabled and three configured repeats. -/
def zeroSignArgs : Args :=
  { defaultArgs with hybrid_i_init := 0, voltage_finish := true, max_repeats := 3 }

/- Helper lemmas about the stop decision. -/

lemma stopDecision_fst (args : Args) (i_sign : ℚ) (s : SeqSummary) (elapsed : ℚ) :
    (stopDecision args i_sign s elapsed).1 =
      (decide (s.meas_v_min ≤ args.stop_v_min) ||
       decide (args.stop_v_max ≤ s.meas_v_max) ||
       (args.voltage_finish && decide (args.finish_v * i_sign ≤ s.meas_v_end * i_sign)) ||
       decide (args.duration ≤ elapsed)) := by
  unfold stopDecision
  dsimp only
  split_ifs <;> simp_all

lemma stopDecision_snd (args : Args) (i_sign : ℚ) (s : SeqSummary) (elapsed : ℚ) :
    (stopDecision args i_sign s elapsed).2 =
      (if s.meas_v_min ≤ args.stop_v_min then [StopReason.lowVoltage] else []) ++
      (if args.stop_v_max ≤ s.meas_v_max then [StopReason.highVoltage] else []) ++
      (if args.voltage_finish ∧ args.finish_v * i_sign ≤ s.meas_v_end * i_sign then
        [StopReason.voltageFinish] else []) ++
      (if args.duration ≤ elapsed then [StopReason.durationExceeded] else []) := by
  unfold stopDecision
  dsimp only
  split_ifs <;> simp_all

lemma mem_snd_voltageFinish (args : Args) (i_sign : ℚ) (s : SeqSummary) (elapsed : ℚ) :
    StopReason.voltageFinish ∈ (stopDecision args i_sign s elapsed).2 ↔
      (args.voltage_finish = true ∧ args.finish_v * i_sign ≤ s.meas_v_end * i_sign) := by
  rw [stopDecision_snd]
  split_ifs <;> simp_all

lemma mem_snd_durationExceeded (args : Args) (i_sign : ℚ) (s : SeqSummary) (elapsed : ℚ) :
    StopReason.durationExceeded ∈ (stopDecision args i_sign s elapsed).2 ↔
      args.duration ≤ elapsed := by
  rw [stopDecision_snd]
  split_ifs <;> simp_all

/-- Claim C1: after every hybrid cycle the controller evaluates the four
checks in the fixed order low-voltage breach, high-voltage breach,
voltage-finish reached (only when enabled), duration exceeded; all four are
evaluated without early exit (the emitted message list is the concatenation
of the four independent checks, in that order), and the stop flag is the
logical OR of the four conditions. -/
theorem claim_C1 (args : Args) (i_sign : ℚ) (s : SeqSummary) (elapsed : ℚ) :
    (stopDecision args i_sign s elapsed).1 =
      (decide (s.meas_v_min ≤ args.stop_v_min) ||
       decide (args.stop_v_max ≤ s.meas_v_max) ||
       (args.voltage_finish && decide (args.finish_v * i_sign ≤ s.meas_v_end * i_sign)) ||
       decide (args.duration ≤ elapsed)) ∧
    (stopDecision args i_sign s elapsed).2 =
      (if s.meas_v_min ≤ args.stop_v_min then [StopReason.lowVoltage] else []) ++
      (if args.stop_v_max ≤ s.meas_v_max then [StopReason.highVoltage] else []) ++
      (if args.voltage_finish ∧ args.finish_v * i_sign ≤ s.meas_v_end * i_sign then
        [StopReason.voltageFinish] else []) ++
      (if args.duration ≤ elapsed then [StopReason.durationExceeded] else []) :=
  ⟨stopDecision_fst args i_sign s elapsed, stopDecision_snd args i_sign s elapsed⟩

/- Helper lemmas about the cycling loop. -/

/-- When no stop condition ever fires, the loop from index n with enough
fuel to reach max_repeats runs every remaining iteration, recording for
each its index, suffix flag and the two power directives, and issues no
CellOff/Close. -/
lemma loopFrom_noStop (args : Args) (i_sign : ℚ) (env : Env)
    (hstop : ∀ m, stopDec args i_sign env m = false) :
    ∀ (fuel n : ℕ) (swco : Bool),
      ((n : ℤ) + fuel = args.max_repeats) →
      loopFrom args i_sign env fuel n swco true =
        { calls := (List.range fuel).map (fun j =>
            { idx := n + j
              cycleSuffix := decide (1 < args.max_repeats)
              start_with_cell_off := swco && decide (n + j = 0)
              leave_cell_on := !decide (((n + j : ℕ) : ℤ) = args.max_repeats - 1) })
          stopped := false
          cellOff := false
          closed := false } := by
  intro fuel
  induction fuel with
  | zero =>
      intro n swco hnf
      simp [loopFrom]
  | succ f ih =>
      intro n swco hnf
      have hs : (stopDecision args i_sign (env.summary n) (env.elapsedAt n)).1 = false := by
        have := hstop n
        simpa [stopDec] using this
      match f with
      | 0 =>
          have hlast : (n : ℤ) = args.max_repeats - 1 := by push_cast at hnf ⊢; omega
          simp [loopFrom, hs, hlast]
          cases n <;> cases swco <;> simp [List.range_succ]
      | f' + 1 =>
          have hne : ¬ (n : ℤ) = args.max_repeats - 1 := by push_cast at hnf ⊢; omega
          have ihn := ih (n + 1) (if 0 < n then false else swco)
            (by push_cast at hnf ⊢; omega)
          rw [loopFrom]
          simp only [hs, Bool.false_eq_true, if_false, hne, ite_false]
          rw [ihn]
          conv_rhs => rw [List.range_succ_eq_map]
          rw [List.map_cons, List.map_map]
          simp only [LoopResult.mk.injEq, List.cons.injEq, and_true]
          refine ⟨?_, ?_⟩
          · simp [hne]
            cases n <;> cases swco <;> simp
          · apply List.map_congr_left
            intro a _
            simp only [Function.comp_apply]
            have e : n + 1 + a = n + (a + 1) := by omega
            rw [e]
            have h2 : ¬ (n + (a + 1) = 0) := by omega
            simp [h2]

/-- If the stop flag first fires k iterations after index n (and there is
fuel to reach it), the loop performs exactly k+1 further hybrid calls,
breaks, and issues CellOff and Close exactly when the session is open. -/
lemma loopFrom_stopAt (args : Args) (i_sign : ℚ) (env : Env) :
    ∀ (k fuel n : ℕ) (swco lco : Bool),
      k < fuel →
      (∀ j, j < k → stopDec args i_sign env (n + j) = false) →
      stopDec args i_sign env (n + k) = true →
      (loopFrom args i_sign env fuel n swco lco).calls.length = k + 1 ∧
      (loopFrom args i_sign env fuel n swco lco).stopped = true ∧
      (loopFrom args i_sign env fuel n swco lco).cellOff = env.pstatOpen ∧
      (loopFrom args i_sign env fuel n swco lco).closed = env.pstatOpen := by
  intro k
  induction k with
  | zero =>
      intro fuel n swco lco hk hbef hat
      obtain ⟨f, rfl⟩ : ∃ f, fuel = f + 1 := ⟨fuel - 1, by omega⟩
      have hs : (stopDecision args i_sign (env.summary n) (env.elapsedAt n)).1 = true := by
        have := hat
        simpa [stopDec] using this
      simp [loopFrom, hs]
  | succ k ih =>
      intro fuel n swco lco hk hbef hat
      obtain ⟨f, rfl⟩ : ∃ f, fuel = f + 1 := ⟨fuel - 1, by omega⟩
      have hs : (stopDecision args i_sign (env.summary n) (env.elapsedAt n)).1 = false := by
        have := hbef 0 (by omega)
        simpa [stopDec] using this
      have hrec := ih f (n + 1) (if 0 < n then false else swco)
        (if (n : ℤ) = args.max_repeats - 1 then false else lco)
        (by omega)
        (by
          intro j hj
          have := hbef (j + 1) (by omega)
          have harith : n + (j + 1) = n + 1 + j := by omega
          rwa [harith] at this)
        (by
          have harith : n + (k + 1) = n + 1 + k := by omega
          rwa [harith] at hat)
      rw [loopFrom]
      simp only [hs, Bool.false_eq_true, if_false, List.length_cons]
      exact ⟨by rw [hrec.1], hrec.2.1, hrec.2.2.1, hrec.2.2.2⟩

/-- Claim C2: for every configured max_repeats = N ≥ 1, if no stop condition
ever fires, the controller invokes the hybrid measurement exactly N times,
passing leave_cell_on = true on iterations 0 through N-2 and
leave_cell_on = false on iteration N-1. -/
theorem claim_C2 (args : Args) (env : Env)
    (hN : 1 ≤ args.max_repeats)
    (hstop : ∀ m, stopDec args (npSign args.hybrid_i_init) env m = false) :
    ((runScript args env).loop.calls.length : ℤ) = args.max_repeats ∧
    ∀ i (h : i < (runScript args env).loop.calls.length),
      (((i : ℤ) < args.max_repeats - 1 →
        ((runScript args env).loop.calls.get ⟨i, h⟩).leave_cell_on = true) ∧
       ((i : ℤ) = args.max_repeats - 1 →
        ((runScript args env).loop.calls.get ⟨i, h⟩).leave_cell_on = false)) := by
  have hloop := loopFrom_noStop args (npSign args.hybrid_i_init) env hstop
    args.max_repeats.toNat 0 (if 0 < args.condition_time then false else true)
    (by omega)
  have hrun : (runScript args env).loop =
      loopFrom args (npSign args.hybrid_i_init) env args.max_repeats.toNat 0
        (if 0 < args.condition_time then false else true) true := rfl
  rw [hrun, hloop]
  constructor
  · simp
    omega
  · intro i h
    simp only [List.get_eq_getElem, List.getElem_map, List.getElem_range]
    have hi : i < args.max_repeats.toNat := by
      simpa using h
    constructor
    · intro hlt
      simp
      omega
    · intro heq
      simp
      omega

/-- Witness for claim C2 at max_repeats = 3 in the benign environment:
exactly three hybrid invocations occur. -/
theorem claim_C2_witness :
    (((runScript { defaultArgs with max_repeats := 3 } quietEnv).loop.calls.length : ℤ) =
      ({ defaultArgs with max_repeats := 3 } : Args).max_repeats) :=
  (claim_C2 { defaultArgs with max_repeats := 3 } quietEnv (by decide)
    (fun _ => rfl)).1

/-- Claim C3: when the low- or high-voltage breach first fires on iteration
k with k < max_repeats - 1, and no stop condition fired earlier, the loop
terminates after exactly k+1 hybrid invocations and, the session being
open, the cell is commanded off and the session closed. -/
theorem claim_C3 (args : Args) (env : Env) (k : ℕ)
    (hopen : env.pstatOpen = true)
    (hk : (k : ℤ) < args.max_repeats - 1)
    (hbef : ∀ j, j < k → stopDec args (npSign args.hybrid_i_init) env j = false)
    (hbreach : (env.summary k).meas_v_min ≤ args.stop_v_min ∨
               args.stop_v_max ≤ (env.summary k).meas_v_max) :
    (runScript args env).loop.calls.length = k + 1 ∧
    (runScript args env).loop.stopped = true ∧
    (runScript args env).loop.cellOff = true ∧
    (runScript args env).loop.closed = true := by
  have hat : stopDec args (npSign args.hybrid_i_init) env k = true := by
    rw [stopDec, stopDecision_fst]
    rcases hbreach with hb | hb <;> simp [hb]
  have h := loopFrom_stopAt args (npSign args.hybrid_i_init) env k
    args.max_repeats.toNat 0 (if 0 < args.condition_time then false else true) true
    (by omega)
    (fun j hj => by simpa using hbef j hj)
    (by simpa using hat)
  have hrun : (runScript args env).loop =
      loopFrom args (npSign args.hybrid_i_init) env args.max_repeats.toNat 0
        (if 0 < args.condition_time then false else true) true := rfl
  rw [hrun]
  exact ⟨h.1, h.2.1, by rw [h.2.2.1, hopen], by rw [h.2.2.2, hopen]⟩

/-- Witness for claim C3: with three configured repeats and a low-voltage
breach on cycle 1, the loop performs exactly two invocations and shuts the
session down. -/
theorem claim_C3_witness :
    (runScript { defaultArgs with max_repeats := 3 } breachEnv).loop.calls.length = 1 + 1 ∧
    (runScript { defaultArgs with max_repeats := 3 } breachEnv).loop.stopped = true ∧
    (runScript { defaultArgs with max_repeats := 3 } breachEnv).loop.cellOff = true ∧
    (runScript { defaultArgs with max_repeats := 3 } breachEnv).loop.closed = true :=
  claim_C3 { defaultArgs with max_repeats := 3 } breachEnv 1 rfl (by decide)
    (fun j hj => by
      have hj0 : j = 0 := by omega
      subst hj0
      rfl)
    (Or.inl (by decide))

lemma npSign_eq_neg_one {x : ℚ} (h : npSign x < 0) : npSign x = -1 := by
  unfold npSign at h ⊢
  split_ifs at h ⊢ <;> norm_num at h ⊢

/-- Claim C4: the voltage-finish current cutoff band: for a positive derived
current sign, i_min = |finish_i_thresh| and i_max = |finish_i_max|; for a
negative derived current sign, i_min = -|finish_i_max| and
i_max = -|finish_i_thresh| (the band mirrored); concretely, with sign +1,
finish_i_thresh = 0.005, finish_i_max = 1.0 the band is (0.005, 1.0), and
with sign -1 and the same magnitudes it is (-1.0, -0.005). -/
theorem claim_C4 (args : Args) :
    (0 < npSign args.hybrid_i_init →
      finishCutoffs args (npSign args.hybrid_i_init) =
        (|args.finish_i_thresh|, |args.finish_i_max|)) ∧
    (npSign args.hybrid_i_init < 0 →
      finishCutoffs args (npSign args.hybrid_i_init) =
        (-|args.finish_i_max|, -|args.finish_i_thresh|)) ∧
    finishCutoffs defaultArgs (npSign defaultArgs.hybrid_i_init) = (1/200, 1) ∧
    finishCutoffs { defaultArgs with hybrid_i_init := -1 }
      (npSign ({ defaultArgs with hybrid_i_init := -1 } : Args).hybrid_i_init) =
      (-1, -1/200) := by
  refine ⟨?_, ?_, ?_, ?_⟩
  · intro h
    unfold finishCutoffs
    rw [if_pos h]
  · intro h
    have h1 : npSign args.hybrid_i_init = -1 := npSign_eq_neg_one h
    unfold finishCutoffs
    rw [if_neg (by rw [h1]; norm_num), h1]
    simp [mul_neg_one]
  · have hs : npSign defaultArgs.hybrid_i_init = 1 := by
      unfold npSign defaultArgs
      norm_num
    rw [hs]
    unfold finishCutoffs
    rw [if_pos (by norm_num : (0:ℚ) < 1)]
    unfold defaultArgs
    rw [show |(1:ℚ)/200| = 1/200 from abs_of_pos (by norm_num), abs_one]
  · have hs : npSign ({ defaultArgs with hybrid_i_init := -1 } : Args).hybrid_i_init = -1 := by
      unfold npSign defaultArgs
      norm_num
    rw [hs]
    unfold finishCutoffs
    rw [if_neg (by norm_num : ¬ (0:ℚ) < -1)]
    unfold defaultArgs
    rw [show |(1:ℚ)/200| = 1/200 from abs_of_pos (by norm_num), abs_one]
    norm_num

/-- Witness for claim C4: the default configuration has a positive initial
current, so the band is the pair of absolute magnitudes. -/
theorem claim_C4_witness :
    finishCutoffs defaultArgs (npSign defaultArgs.hybrid_i_init) =
      (|defaultArgs.finish_i_thresh|, |defaultArgs.finish_i_max|) :=
  (claim_C4 defaultArgs).1 (by decide)

/-- Claim C5: the voltage-finish stop check is sign-normalized: it fires
exactly when voltage-finish is enabled and
end_voltage × current_sign ≥ finish_voltage × current_sign; concretely,
with sign +1 and finish_v = 0, end_voltage = 0.01 triggers it; with sign -1
and the same finish_v, end_voltage = -0.01 triggers it while
end_voltage = 0.01 does not. -/
theorem claim_C5 :
    (∀ (args : Args) (i_sign : ℚ) (s : SeqSummary) (elapsed : ℚ),
      (StopReason.voltageFinish ∈ (stopDecision args i_sign s elapsed).2 ↔
        (args.voltage_finish = true ∧
          args.finish_v * i_sign ≤ s.meas_v_end * i_sign))) ∧
    StopReason.voltageFinish ∈
      (stopDecision vfArgs 1
        { meas_v_min := 0, meas_v_max := 0, meas_v_end := 1/100 } 0).2 ∧
    StopReason.voltageFinish ∈
      (stopDecision vfArgs (-1)
        { meas_v_min := 0, meas_v_max := 0, meas_v_end := -1/100 } 0).2 ∧
    StopReason.voltageFinish ∉
      (stopDecision vfArgs (-1)
        { meas_v_min := 0, meas_v_max := 0, meas_v_end := 1/100 } 0).2 := by
  refine ⟨mem_snd_voltageFinish, ?_, ?_, ?_⟩
  · rw [mem_snd_voltageFinish]
    exact ⟨rfl, by unfold vfArgs defaultArgs; norm_num⟩
  · rw [mem_snd_voltageFinish]
    exact ⟨rfl, by unfold vfArgs defaultArgs; norm_num⟩
  · intro hmem
    rw [mem_snd_voltageFinish] at hmem
    have h2 := hmem.2
    unfold vfArgs defaultArgs at h2
    norm_num at h2

/-- Claim C8: the duration-exceeded check is monotone: with non-decreasing
elapsed time, once the duration-exceeded condition holds at a cycle
boundary it holds at every later cycle boundary. -/
theorem claim_C8 (args : Args) (i_sign : ℚ) (env : Env)
    (hmono : ∀ a b : ℕ, a ≤ b → env.elapsedAt a ≤ env.elapsedAt b)
    (n m : ℕ) (hnm : n ≤ m)
    (hn : StopReason.durationExceeded ∈
      (stopDecision args i_sign (env.summary n) (env.elapsedAt n)).2) :
    StopReason.durationExceeded ∈
      (stopDecision args i_sign (env.summary m) (env.elapsedAt m)).2 := by
  rw [mem_snd_durationExceeded] at hn ⊢
  exact le_trans hn (hmono n m hnm)

/-- Witness for claim C8: with a 2-second duration budget and elapsed time
growing one second per cycle, duration-exceeded holds at cycle 2 and hence
still at cycle 5. -/
theorem claim_C8_witness :
    StopReason.durationExceeded ∈
      (stopDecision { defaultArgs with duration := 2 } 1
        (climbEnv.summary 5) (climbEnv.elapsedAt 5)).2 :=
  claim_C8 { defaultArgs with duration := 2 } 1 climbEnv
    (fun a b h => by
      show ((a : ℚ) ≤ (b : ℚ))
      exact_mod_cast h)
    2 5 (by omega) (by decide)
/-- Every call the loop records carries an index at least the start index,
and its start_with_cell_off directive equals the incoming directive at
index 0 and false at any positive index. -/
lemma loopFrom_swco_mem (args : Args) (i_sign : ℚ) (env : Env) :
    ∀ (fuel n : ℕ) (swco lco : Bool),
      ∀ r ∈ (loopFrom args i_sign env fuel n swco lco).calls,
        n ≤ r.idx ∧ r.start_with_cell_off = (swco && decide (r.idx = 0)) := by
  intro fuel
  induction fuel with
  | zero =>
      intro n swco lco r hr
      simp [loopFrom] at hr
  | succ f ih =>
      intro n swco lco r hr
      cases hs : (stopDecision args i_sign (env.summary n) (env.elapsedAt n)).1 with
      | true =>
          simp [loopFrom, hs] at hr
          subst hr
          refine ⟨le_refl n, ?_⟩
          cases n <;> cases swco <;> simp
      | false =>
          simp [loopFrom, hs] at hr
          rcases hr with hr | hr
          · subst hr
            refine ⟨le_refl n, ?_⟩
            cases n <;> cases swco <;> simp
          · have h := ih (n + 1) (!decide (0 < n) && swco)
              (!decide ((n : ℤ) = args.max_repeats - 1) && lco) r (by
                simpa using hr)
            have hpos : ¬ (r.idx = 0) := by omega
            refine ⟨by omega, ?_⟩
            rw [h.2]
            simp [hpos]

/-- Claim C6: the start-with-cell-off directive passed to the hybrid
measurement is true exactly on iteration 0 with no conditioning run
(condition_time ≤ 0); it is false on iteration 0 when conditioning ran and
false on every later iteration. -/
theorem claim_C6 (args : Args) (env : Env) (r : CycleRecord)
    (hr : r ∈ (runScript args env).loop.calls) :
    r.start_with_cell_off = true ↔ (r.idx = 0 ∧ args.condition_time ≤ 0) := by
  have h := loopFrom_swco_mem args (npSign args.hybrid_i_init) env
    args.max_repeats.toNat 0 (if 0 < args.condition_time then false else true) true r hr
  rw [h.2]
  by_cases hc : 0 < args.condition_time <;> by_cases hi : r.idx = 0 <;>
    simp [hc, hi, not_lt, le_of_lt]
  exact le_of_not_lt hc

/-- Witness for claim C6: in the default no-conditioning single-repeat run,
the sole recorded call has start_with_cell_off = true, index 0, and the
configured conditioning time is non-positive. -/
theorem claim_C6_witness :
    (CycleRecord.mk 0 false true false).start_with_cell_off = true ↔
      ((CycleRecord.mk 0 false true false).idx = 0 ∧
        defaultArgs.condition_time ≤ 0) :=
  claim_C6 defaultArgs quietEnv (CycleRecord.mk 0 false true false) (by decide)

/-- Claim C9: when the initial current is exactly zero the derived sign is
0, the cutoff computation takes the negative branch and yields the
degenerate band (0, 0), the stop flag holds after every cycle via the
voltage-finish check, and with voltage-finish enabled the loop stops after
the first hybrid invocation. -/
theorem claim_C9 (args : Args) (env : Env)
    (h0 : args.hybrid_i_init = 0) (hvf : args.voltage_finish = true)
    (hN : 1 ≤ args.max_repeats) :
    npSign args.hybrid_i_init = 0 ∧
    finishCutoffs args (npSign args.hybrid_i_init) = (0, 0) ∧
    (∀ n, stopDec args (npSign args.hybrid_i_init) env n = true) ∧
    (runScript args env).loop.calls.length = 1 ∧
    (runScript args env).loop.stopped = true := by
  have hsign : npSign args.hybrid_i_init = 0 := by
    rw [h0]
    unfold npSign
    norm_num
  have hstop : ∀ n, stopDec args (npSign args.hybrid_i_init) env n = true := by
    intro n
    rw [stopDec, stopDecision_fst, hsign]
    simp [hvf, mul_zero]
  have h := loopFrom_stopAt args (npSign args.hybrid_i_init) env 0
    args.max_repeats.toNat 0 (if 0 < args.condition_time then false else true) true
    (by omega)
    (fun j hj => absurd hj (by omega))
    (by simpa using hstop 0)
  have hrun : (runScript args env).loop =
      loopFrom args (npSign args.hybrid_i_init) env args.max_repeats.toNat 0
        (if 0 < args.condition_time then false else true) true := rfl
  refine ⟨hsign, ?_, hstop, by rw [hrun]; exact h.1, by rw [hrun]; exact h.2.1⟩
  rw [hsign]
  unfold finishCutoffs
  norm_num

/-- Witness for claim C9: the zero-current configuration with voltage
finish enabled and three configured repeats performs exactly one hybrid
invocation and stops. -/
theorem claim_C9_witness :
    npSign zeroSignArgs.hybrid_i_init = 0 ∧
    finishCutoffs zeroSignArgs (npSign zeroSignArgs.hybrid_i_init) = (0, 0) ∧
    (runScript zeroSignArgs quietEnv).loop.calls.length = 1 ∧
    (runScript zeroSignArgs quietEnv).loop.stopped = true := by
  have h := claim_C9 zeroSignArgs quietEnv rfl rfl (by decide)
  exact ⟨h.1, h.2.1, h.2.2.2.1, h.2.2.2.2⟩

/-- Claim C10: with max_repeats ≤ 0 the cycling loop body never executes —
no hybrid invocation, no stop evaluation, no CellOff or Close — while the
voltage-finish stage still runs (computing its cutoff band) exactly when
voltage-finish is enabled. -/
theorem claim_C10 (args : Args) (env : Env) (hN : args.max_repeats ≤ 0) :
    (runScript args env).loop =
      { calls := [], stopped := false, cellOff := false, closed := false } ∧
    (runScript args env).finishRan = args.voltage_finish ∧
    (runScript args env).finishBand =
      (if args.voltage_finish then
        some (finishCutoffs args (npSign args.hybrid_i_init)) else none) := by
  have h0 : args.max_repeats.toNat = 0 := by omega
  have hrun : (runScript args env).loop =
      loopFrom args (npSign args.hybrid_i_init) env args.max_repeats.toNat 0
        (if 0 < args.condition_time then false else true) true := rfl
  refine ⟨?_, rfl, rfl⟩
  rw [hrun, h0]
  rfl

/-- Witness for claim C10: with max_repeats = 0 and voltage finish enabled
the loop is empty and the finish stage still computes its band. -/
theorem claim_C10_witness :
    (runScript { vfArgs with max_repeats := 0 } quietEnv).loop =
      { calls := [], stopped := false, cellOff := false, closed := false } ∧
    (runScript { vfArgs with max_repeats := 0 } quietEnv).finishRan =
      ({ vfArgs with max_repeats := 0 } : Args).voltage_finish ∧
    (runScript { vfArgs with max_repeats := 0 } quietEnv).finishBand =
      (if ({ vfArgs with max_repeats := 0 } : Args).voltage_finish then
        some (finishCutoffs { vfArgs with max_repeats := 0 }
          (npSign ({ vfArgs with max_repeats := 0 } : Args).hybrid_i_init))
      else none) :=
  claim_C10 { vfArgs with max_repeats := 0 } quietEnv (by decide)
/-- One-step unfolding of the cycling loop. -/
lemma loopFrom_succ (args : Args) (i_sign : ℚ) (env : Env)
    (fuel n : ℕ) (swco lco : Bool) :
    loopFrom args i_sign env (fuel + 1) n swco lco =
      (let swco2 := if 0 < n then false else swco
       let lco2 := if (n : ℤ) = args.max_repeats - 1 then false else lco
       let cyc : CycleRecord :=
         { idx := n
           cycleSuffix := decide (1 < args.max_repeats)
           start_with_cell_off := swco2
           leave_cell_on := lco2 }
       if (stopDecision args i_sign (env.summary n) (env.elapsedAt n)).1 then
         { calls := [cyc], stopped := true
           cellOff := env.pstatOpen, closed := env.pstatOpen }
       else
         let rest := loopFrom args i_sign env fuel (n + 1) swco2 lco2
         { calls := cyc :: rest.calls, stopped := rest.stopped
           cellOff := rest.cellOff, closed := rest.closed }) := rfl

/-- With max_repeats = 1 and no conditioning, the loop performs exactly one
hybrid call with start_with_cell_off = true and leave_cell_on = false, and
issues CellOff/Close exactly when that cycle fires the stop flag with the
session open. -/
lemma runScript_single (args : Args) (env : Env)
    (h1 : args.max_repeats = 1) (h3 : args.condition_time ≤ 0) :
    (runScript args env).loop =
      { calls := [{ idx := 0, cycleSuffix := false
                    start_with_cell_off := true, leave_cell_on := false }]
        stopped := stopDec args (npSign args.hybrid_i_init) env 0
        cellOff := stopDec args (npSign args.hybrid_i_init) env 0 && env.pstatOpen
        closed := stopDec args (npSign args.hybrid_i_init) env 0 && env.pstatOpen } := by
  have hswco : (if 0 < args.condition_time then false else true) = true := by
    rw [if_neg (not_lt.mpr h3)]
  have hrun : (runScript args env).loop =
      loopFrom args (npSign args.hybrid_i_init) env args.max_repeats.toNat 0
        (if 0 < args.condition_time then false else true) true := rfl
  rw [hrun, hswco, show args.max_repeats.toNat = 0 + 1 from by omega, loopFrom_succ]
  have hlast : ((0 : ℕ) : ℤ) = args.max_repeats - 1 := by rw [h1]; norm_num
  cases hstop0 : stopDec args (npSign args.hybrid_i_init) env 0 with
  | true =>
      have hq : (stopDecision args (npSign args.hybrid_i_init)
          (env.summary 0) (env.elapsedAt 0)).1 = true := by
        simpa [stopDec] using hstop0
      simp [hq, hlast, h1]
  | false =>
      have hq : (stopDecision args (npSign args.hybrid_i_init)
          (env.summary 0) (env.elapsedAt 0)).1 = false := by
        simpa [stopDec] using hstop0
      simp [hq, hlast, h1, loopFrom]

/-- Counterexample to claim C7: a run with max_repeats = 1, voltage finish
disabled and no conditioning, in which no stop condition fires: the single
hybrid invocation happens with start_with_cell_off = true and
leave_cell_on = false and the finish stage does not run, yet the controller
does NOT close the instrument session, contradicting the claimed
"followed by closing the instrument session". -/
theorem claim_C7_counterexample :
    (runScript defaultArgs quietEnv).loop.calls =
      [{ idx := 0, cycleSuffix := false
         start_with_cell_off := true, leave_cell_on := false }] ∧
    (runScript defaultArgs quietEnv).finishRan = false ∧
    ¬ ((runScript defaultArgs quietEnv).loop.closed = true) := by
  decide

/-- Claim C7 as amended: with max_repeats = 1, voltage finish disabled and
no conditioning, the run performs exactly one hybrid invocation with
start_with_cell_off = true and leave_cell_on = false, and the finish stage
does not run; the session-close (and cell-off) command is issued after
that invocation iff the stop decision of that cycle fires and the session
is open — otherwise the controller ends without closing the session. -/
theorem claim_C7_amended (args : Args) (env : Env)
    (h1 : args.max_repeats = 1) (h2 : args.voltage_finish = false)
    (h3 : args.condition_time ≤ 0) :
    (runScript args env).loop.calls =
      [{ idx := 0, cycleSuffix := false
         start_with_cell_off := true, leave_cell_on := false }] ∧
    (runScript args env).finishRan = false ∧
    (runScript args env).loop.closed =
      (stopDec args (npSign args.hybrid_i_init) env 0 && env.pstatOpen) ∧
    (runScript args env).loop.cellOff =
      (stopDec args (npSign args.hybrid_i_init) env 0 && env.pstatOpen) := by
  have h := runScript_single args env h1 h3
  exact ⟨by rw [h], h2, by rw [h], by rw [h]⟩

/-- Witness for the amended claim C7 in the default configuration and the
benign environment. -/
theorem claim_C7_witness :
    (runScript defaultArgs quietEnv).loop.calls =
      [{ idx := 0, cycleSuffix := false
         start_with_cell_off := true, leave_cell_on := false }] ∧
    (runScript defaultArgs quietEnv).finishRan = false ∧
    (runScript defaultArgs quietEnv).loop.closed =
      (stopDec defaultArgs (npSign defaultArgs.hybrid_i_init) quietEnv 0 &&
        quietEnv.pstatOpen) ∧
    (runScript defaultArgs quietEnv).loop.cellOff =
      (stopDec defaultArgs (npSign defaultArgs.hybrid_i_init) quietEnv 0 &&
        quietEnv.pstatOpen) :=
  claim_C7_amended defaultArgs quietEnv rfl rfl (by decide)
end ChargeHybrid
